import Mathlib

/-!
# Verification of the rob.numbox JSUI widget

Shallow embedding of the numeric-box widget implemented in
`src/jsui.numbox.js` and the later script variant (`src/unnamed/part_000`).
The two variants are near-duplicates; where they differ (decibel output
conversion, the drag boundary-recovery rule, `notifyclients` calls) the
later variant is embedded, matching the project's own design notes.

Modelling conventions:
* JS numbers are modelled by an arbitrary `LinearOrderedField` so that every
  definition is executable at `ℚ` while the decibel claims can be stated at
  `ℝ` (where `Math.pow(10, x)` is real exponentiation).  IEEE-754 rounding is
  outside the scope of the claims.
* The host `box` attribute store is an explicit `BoxAttrs` record; a missing
  or null attribute is `Option.none`.
* Observable side effects (`outlet`, `notifyclients`, cursor hide/show/move)
  are collected in an `Emission` list returned next to the new state.
* Digit rendering of doubles (`toFixed`, `toString`) is abstracted: the
  display text is a `DispText` value recording which formatting the source
  chose (value, decimal places, suffix), not the rendered digit string.
-/

section Numbox

variable {α : Type} [LinearOrderedField α]

/-- Which formatting the `updateDisplay` switch chose for the display text.
`.str` is a literal string (the edit buffer, or `"-inf"`); `.rounded v suf`
stands for `Math.round(v).toString() + suf`; `.fixed v d suf` stands for
`v.toFixed(d) + suf`. -/
inductive DispText (α : Type) where
  | str (s : String)
  | rounded (v : α) (suffix : String)
  | fixed (v : α) (decimals : Nat) (suffix : String)
  deriving DecidableEq

/-- One observable side effect of a handler: a value on the primary outlet
(`outlet(0, v)`), the bang on the secondary outlet (`outlet(1, "bang")`),
a `notifyclients()` call, or a system-cursor action (`max.hidecursor()`,
`max.showcursor()`, `max.pupdate(x, y)`). -/
inductive Emission (α : Type) where
  | outlet0 (v : α)
  | outlet1Bang
  | notify
  | hideCursor
  | showCursor
  | pupdate (x y : α)
  deriving DecidableEq

/-- The widget's mutable globals (`currentValue` … `clickedInside`).
`cursorTimerRunning` models whether the `cursorTimer` Task is scheduled. -/
structure NumboxState (α : Type) where
  currentValue : α
  minValue : α
  maxValue : α
  initialValue : α
  textJustification : String
  activeState : Bool
  displayText : DispText α
  outputValue : α
  isDragging : Bool
  dragStartY : α
  dragStartValue : α
  lastDragY : α
  cursorOrigin : α × α
  isEditing : Bool
  editText : String
  hasFocus : Bool
  showCursor : Bool
  cursorTimerRunning : Bool
  clickedInside : Bool
  deriving DecidableEq

/-- The external inspector/attribute store read through `box.getattr`.
`range` is `_parameter_range` (`none` models a null/undefined attribute),
`initialEnable` is the truthiness of `_parameter_initial_enable`,
`initial` is `_parameter_initial`, `unitstyle` is `_parameter_unitstyle`,
`jsarguments` is the initialization-argument list normalized to strings
(a single string attribute becomes a one-element list, as in the source's
string/array handling). -/
structure BoxAttrs (α : Type) where
  range : Option (List α)
  initialEnable : Bool
  initial : Option α
  unitstyle : Option Nat
  jsarguments : List String

/-- The host environment: the attribute store plus the host math library's
power function `Math.pow` (left abstract over `α`; the decibel claims
instantiate it with real exponentiation). -/
structure Env (α : Type) where
  attrs : BoxAttrs α
  pow : α → α → α

/-- `Math.max(lo, Math.min(hi, x))`, the clamping idiom used throughout. -/
def clampJS (lo hi x : α) : α := max lo (min hi x)

/-- `getUnitStyle`: `box.getattr("_parameter_unitstyle") || 0`. -/
def getUnitStyle (attrs : BoxAttrs α) : Nat := attrs.unitstyle.getD 0

/-- `dbtoa`: `Math.pow(10, dB / 20)`. -/
def dbtoa (env : Env α) (dB : α) : α := env.pow 10 (dB / 20)

/-- `normalStepSize = 0.5` (dragging without modifier, arrow keys). -/
def normalStepSize : α := 1 / 2

/-- `fineStepSize = 0.02` (shift+drag). -/
def fineStepSize : α := 1 / 50

/-- The display text chosen by the `switch (unitStyle)` in `updateDisplay`
(non-editing case). -/
def styledDisplay (env : Env α) (v : α) : DispText α :=
  match getUnitStyle env.attrs with
  | 0 => .rounded v ""
  | 1 => .fixed v 2 ""
  | 2 => .fixed v 1 " ms"
  | 3 => .rounded v " Hz"
  | 4 => if v ≤ -80 then .str "-inf" else .fixed v 1 " dB"
  | 5 => .rounded v " %"
  | 6 => .fixed v 2 ""
  | 7 => .fixed v 1 " st"
  | 8 => .rounded v ""
  | 9 => .fixed v 2 ""
  | 10 => .fixed v 2 ""
  | _ => .fixed v 1 ""

/-- The output value assigned by the same `switch` (non-editing case): every
branch stores `currentValue` except the decibel branch, which stores `0` at
or below `-80` and `dbtoa(currentValue)` above. -/
def styledOutput (env : Env α) (v : α) : α :=
  match getUnitStyle env.attrs with
  | 0 => v
  | 1 => v
  | 2 => v
  | 3 => v
  | 4 => if v ≤ -80 then 0 else dbtoa env v
  | 5 => v
  | 6 => v
  | 7 => v
  | 8 => v
  | 9 => v
  | 10 => v
  | _ => v

/-- `updateDisplay()`: while editing, the display is the raw edit buffer and
`outputValue = currentValue`; otherwise both are derived from `currentValue`
by the unit-style switch. -/
def updateDisplay (env : Env α) (s : NumboxState α) : NumboxState α :=
  if s.isEditing then
    { s with displayText := .str s.editText, outputValue := s.currentValue }
  else
    { s with displayText := styledDisplay env s.currentValue,
             outputValue := styledOutput env s.currentValue }

/-- `updateRange()`: reads `_parameter_range`; on a well-formed array
(length ≥ 2) installs the new bounds and re-clamps `currentValue`, emitting
the new output on the primary outlet when the value actually moved and the
widget is active.  A missing or too-short range is ignored. -/
def updateRange (env : Env α) (s : NumboxState α) :
    NumboxState α × List (Emission α) :=
  match env.attrs.range with
  | some (minV :: maxV :: _) =>
    let s1 : NumboxState α := { s with minValue := minV, maxValue := maxV }
    let newValue := clampJS minV maxV s1.currentValue
    if newValue ≠ s1.currentValue then
      let s2 := updateDisplay env { s1 with currentValue := newValue }
      (s2, if s2.activeState then [.outlet0 s2.outputValue] else [])
    else
      (s1, [])
  | some _ => (s, [])
  | none => (s, [])

/-- `updateInitialValue()`: re-reads `_parameter_initial_enable` and
`_parameter_initial`; falls back to `0` when initial is not enabled. -/
def updateInitialValue (env : Env α) (s : NumboxState α) : NumboxState α :=
  if env.attrs.initialEnable then
    match env.attrs.initial with
    | some v => { s with initialValue := v }
    | none => s
  else
    { s with initialValue := 0 }

/-- `msg_float(x)` (later variant): refresh range and initial value, clamp
`x` into the refreshed bounds, recompute the display, `notifyclients()`,
then output when active. -/
def msg_float (env : Env α) (x : α) (s : NumboxState α) :
    NumboxState α × List (Emission α) :=
  let r1 := updateRange env s
  let s1 := updateInitialValue env r1.1
  let s2 := updateDisplay env
    { s1 with currentValue := clampJS s1.minValue s1.maxValue x }
  (s2, r1.2 ++ [.notify] ++
    (if s2.activeState then [.outlet0 s2.outputValue] else []))

/-- `setvalueof(value)` (pattr entry point): refresh range, clamp, recompute
the display, output when active (no `notifyclients`). -/
def setvalueof (env : Env α) (value : α) (s : NumboxState α) :
    NumboxState α × List (Emission α) :=
  let r1 := updateRange env s
  let s1 := updateDisplay env
    { r1.1 with currentValue := clampJS r1.1.minValue r1.1.maxValue value }
  (s1, r1.2 ++ (if s1.activeState then [.outlet0 s1.outputValue] else []))

/-- Accumulate a digit run into a natural number. -/
def digitsVal (cs : List Char) : Nat :=
  cs.foldl (fun acc c => acc * 10 + (c.toNat - 48)) 0

/-- JS `parseFloat` restricted to the character set reachable through this
program's key filter (digits, `'.'`, `'-'`, plus an optional `'+'` sign):
parse the longest decimal-literal prefix (optional sign, digits, optional
dot and fraction digits), ignore any trailing garbage, and fail (`NaN`,
modelled as `none`) when no digit was consumed.  Leading whitespace,
`Infinity` and exponents cannot occur in this program's edit buffers. -/
def parseFloatJS (str : String) : Option α :=
  let cs := str.data
  let sgn : α × List Char :=
    match cs with
    | '-' :: rest => (-1, rest)
    | '+' :: rest => (1, rest)
    | _ => (1, cs)
  let intDigits := sgn.2.takeWhile Char.isDigit
  let rest := sgn.2.dropWhile Char.isDigit
  match rest with
  | '.' :: rest2 =>
    let fracDigits := rest2.takeWhile Char.isDigit
    if intDigits.isEmpty && fracDigits.isEmpty then none
    else some (sgn.1 * ((digitsVal intDigits : α) +
      (digitsVal fracDigits : α) / (10 : α) ^ fracDigits.length))
  | _ =>
    if intDigits.isEmpty then none
    else some (sgn.1 * (digitsVal intDigits : α))

/-- `commitEdit()`: if a session is active, cancel the blink timer and parse
the buffer; on success clamp and apply the parsed value, `notifyclients()`
and output when active (note: that `outlet` call happens while `isEditing`
is still true, so the emitted `outputValue` is the raw clamped value); in
either case leave edit mode and recompute the display. -/
def commitEdit (env : Env α) (s : NumboxState α) :
    NumboxState α × List (Emission α) :=
  if s.isEditing then
    let s0 : NumboxState α := { s with cursorTimerRunning := false }
    match parseFloatJS (α := α) s.editText with
    | some newValue =>
      let v := clampJS s0.minValue s0.maxValue newValue
      let s1 := updateDisplay env { s0 with currentValue := v }
      let ems := [Emission.notify] ++
        (if s1.activeState then [Emission.outlet0 s1.outputValue] else [])
      (updateDisplay env { s1 with isEditing := false }, ems)
    | none =>
      (updateDisplay env { s0 with isEditing := false }, [])
  else
    (s, [])

/-- `cancelEdit()`: cancel the blink timer and discard the buffer without
touching the value. -/
def cancelEdit (env : Env α) (s : NumboxState α) : NumboxState α :=
  if s.isEditing then
    updateDisplay env
      { s with cursorTimerRunning := false, isEditing := false, editText := "" }
  else
    s

/-- `onclick(x, y, …)`: flag the local click, take focus, open a drag
session, refresh range and initial value, and bang the second outlet to
request a `mousestate` poll.  (The `button`/modifier arguments are unused by
the source handler and omitted here.) -/
def onclick (env : Env α) (y : α) (s : NumboxState α) :
    NumboxState α × List (Emission α) :=
  let s1 : NumboxState α :=
    { s with clickedInside := true, hasFocus := true, isDragging := true,
             dragStartY := y, lastDragY := y, dragStartValue := s.currentValue }
  let r := updateRange env s1
  (updateInitialValue env r.1, r.2 ++ [.outlet1Bang])

/-- `ondrag(x, y, button, …, shift, …)` (later variant): while dragging,
hide the cursor; if `|lastDragY| > 30` re-center the system cursor to the
stored origin and reset `lastDragY` without touching the value (early
return); otherwise apply `currentValue + (lastDragY - y) * step` clamped,
with the fine step under shift, emitting only when the value moved; finally
update `lastDragY` and, on button release, restore the cursor and close the
drag session. -/
def ondrag (env : Env α) (y : α) (button shift : Bool) (s : NumboxState α) :
    NumboxState α × List (Emission α) :=
  if s.isDragging then
    let ems0 : List (Emission α) := [.hideCursor]
    if 30 < |s.lastDragY| then
      ({ s with lastDragY := y },
       ems0 ++ [.pupdate s.cursorOrigin.1 s.cursorOrigin.2])
    else
      let deltaY := s.lastDragY - y
      let stepSize : α := if shift then fineStepSize else normalStepSize
      let newValue := clampJS s.minValue s.maxValue
        (s.currentValue + deltaY * stepSize)
      let r1 : NumboxState α × List (Emission α) :=
        if newValue ≠ s.currentValue then
          let s1 := updateDisplay env { s with currentValue := newValue }
          (s1, ems0 ++ [.notify] ++
            (if s1.activeState then [.outlet0 s1.outputValue] else []))
        else
          (s, ems0)
      let s2 : NumboxState α := { r1.1 with lastDragY := y }
      if button then
        (s2, r1.2)
      else
        ({ s2 with isDragging := false },
         r1.2 ++ [.pupdate s2.cursorOrigin.1 s2.cursorOrigin.2, .showCursor])
  else
    (s, [])

/-- `onidleout(x, y)`: close any drag session and restore the cursor;
deliberately leaves `hasFocus` alone. -/
def onidleout (s : NumboxState α) : NumboxState α × List (Emission α) :=
  if s.isDragging then
    ({ s with isDragging := false }, [.showCursor])
  else
    (s, [])

/-- `globalMouse(leftClick, globalX, globalY)`: store the cursor origin and,
on a left click while focused, schedule the 1 ms deferred focus check.  The
returned boolean reports whether the check was scheduled. -/
def globalMouse (leftClick : Bool) (globalX globalY : α) (s : NumboxState α) :
    NumboxState α × Bool :=
  let s1 : NumboxState α := { s with cursorOrigin := (globalX, globalY) }
  (s1, leftClick && s1.hasFocus)

/-- The body of the deferred task scheduled by `globalMouse`: if no local
`onclick` claimed the click, drop focus and force-commit any open edit;
always reset the `clickedInside` flag. -/
def globalMouseDeferred (env : Env α) (s : NumboxState α) :
    NumboxState α × List (Emission α) :=
  let r : NumboxState α × List (Emission α) :=
    if s.clickedInside then
      (s, [])
    else
      let s1 : NumboxState α := { s with hasFocus := false }
      if s1.isEditing then commitEdit env s1 else (s1, [])
  ({ r.1 with clickedInside := false }, r.2)

/-- The flat tuple embedded by `save()` via
`embedmessage("restoreInternalState", …)`. -/
structure SaveRecord (α : Type) where
  value : α
  min : α
  max : α
  initial : α
  justification : String
  active : Bool
  deriving DecidableEq

/-- The internal-state part of `save()`: snapshot the six internal
variables into the embedded record. -/
def save (s : NumboxState α) : SaveRecord α :=
  ⟨s.currentValue, s.minValue, s.maxValue, s.initialValue,
   s.textJustification, s.activeState⟩

/-- `restoreInternalState(value, min, max, initial, justification, active)`:
assign the six internal variables verbatim from the saved record, then
recompute the display.  No clamping and no outlet output. -/
def restoreInternalState (env : Env α) (r : SaveRecord α)
    (s : NumboxState α) : NumboxState α × List (Emission α) :=
  let s1 : NumboxState α :=
    { s with currentValue := r.value, minValue := r.min, maxValue := r.max,
             initialValue := r.initial, textJustification := r.justification,
             activeState := r.active }
  (updateDisplay env s1, [])

/-- The justification candidates collected by `parseJustificationArgs`:
lower-case every argument, keep the recognized words, normalize `"center"`
to `"centre"`. -/
def foundJustifications (args : List String) : List String :=
  args.filterMap (fun a0 =>
    let a := String.mk (a0.data.map Char.toLower)
    if a = "left" || a = "centre" || a = "center" || a = "right" then
      some (if a = "center" then "centre" else a)
    else
      none)

/-- `parseJustificationArgs()`: more than one recognized argument is a
conflict resolved to `"centre"`; exactly one sets that justification; none
defaults to `"centre"`. -/
def parseJustificationArgs (env : Env α) (s : NumboxState α) :
    NumboxState α :=
  let found := foundJustifications env.attrs.jsarguments
  if found.length > 1 then
    { s with textJustification := "centre" }
  else if found.length = 1 then
    { s with textJustification := found.headI }
  else
    { s with textJustification := "centre" }

end Numbox


/-! ## Helper lemmas -/

section Lemmas

variable {α : Type} [LinearOrderedField α]

/-- The min bound after a range refresh: the first range entry when the
range attribute is well-formed, the prior cached bound otherwise. -/
def refreshedMin (env : Env α) (s : NumboxState α) : α :=
  match env.attrs.range with
  | some (a :: _ :: _) => a
  | _ => s.minValue

/-- The max bound after a range refresh. -/
def refreshedMax (env : Env α) (s : NumboxState α) : α :=
  match env.attrs.range with
  | some (_ :: b :: _) => b
  | _ => s.maxValue

theorem clampJS_of_mem {lo hi x : α} (h1 : lo ≤ x) (h2 : x ≤ hi) :
    clampJS lo hi x = x := by
  unfold clampJS
  rw [min_eq_right h2, max_eq_right h1]

theorem clampJS_of_lt {lo hi x : α} (h : lo ≤ hi) (hx : x < lo) :
    clampJS lo hi x = lo := by
  unfold clampJS
  rw [min_eq_right (le_of_lt (lt_of_lt_of_le hx h)), max_eq_left (le_of_lt hx)]

theorem clampJS_of_gt {lo hi x : α} (h : lo ≤ hi) (hx : hi < x) :
    clampJS lo hi x = hi := by
  unfold clampJS
  rw [min_eq_left (le_of_lt hx), max_eq_right h]

theorem clampJS_le_hi {lo hi x : α} (h : lo ≤ hi) : clampJS lo hi x ≤ hi := by
  unfold clampJS
  exact max_le h (min_le_left _ _)

theorem lo_le_clampJS {lo hi x : α} : lo ≤ clampJS lo hi x :=
  le_max_left _ _

@[simp] theorem updateDisplay_currentValue (env : Env α) (s : NumboxState α) :
    (updateDisplay env s).currentValue = s.currentValue := by
  unfold updateDisplay; split <;> rfl

@[simp] theorem updateDisplay_minValue (env : Env α) (s : NumboxState α) :
    (updateDisplay env s).minValue = s.minValue := by
  unfold updateDisplay; split <;> rfl

@[simp] theorem updateDisplay_maxValue (env : Env α) (s : NumboxState α) :
    (updateDisplay env s).maxValue = s.maxValue := by
  unfold updateDisplay; split <;> rfl

@[simp] theorem updateDisplay_initialValue (env : Env α) (s : NumboxState α) :
    (updateDisplay env s).initialValue = s.initialValue := by
  unfold updateDisplay; split <;> rfl

@[simp] theorem updateDisplay_textJustification (env : Env α)
    (s : NumboxState α) :
    (updateDisplay env s).textJustification = s.textJustification := by
  unfold updateDisplay; split <;> rfl

@[simp] theorem updateDisplay_activeState (env : Env α) (s : NumboxState α) :
    (updateDisplay env s).activeState = s.activeState := by
  unfold updateDisplay; split <;> rfl

@[simp] theorem updateDisplay_isEditing (env : Env α) (s : NumboxState α) :
    (updateDisplay env s).isEditing = s.isEditing := by
  unfold updateDisplay; split <;> rfl

@[simp] theorem updateDisplay_editText (env : Env α) (s : NumboxState α) :
    (updateDisplay env s).editText = s.editText := by
  unfold updateDisplay; split <;> rfl

@[simp] theorem updateDisplay_hasFocus (env : Env α) (s : NumboxState α) :
    (updateDisplay env s).hasFocus = s.hasFocus := by
  unfold updateDisplay; split <;> rfl

@[simp] theorem updateDisplay_isDragging (env : Env α) (s : NumboxState α) :
    (updateDisplay env s).isDragging = s.isDragging := by
  unfold updateDisplay; split <;> rfl

@[simp] theorem updateDisplay_lastDragY (env : Env α) (s : NumboxState α) :
    (updateDisplay env s).lastDragY = s.lastDragY := by
  unfold updateDisplay; split <;> rfl

@[simp] theorem updateDisplay_cursorTimerRunning (env : Env α)
    (s : NumboxState α) :
    (updateDisplay env s).cursorTimerRunning = s.cursorTimerRunning := by
  unfold updateDisplay; split <;> rfl

@[simp] theorem updateDisplay_clickedInside (env : Env α)
    (s : NumboxState α) :
    (updateDisplay env s).clickedInside = s.clickedInside := by
  unfold updateDisplay; split <;> rfl

@[simp] theorem updateDisplay_outputValue (env : Env α) (s : NumboxState α) :
    (updateDisplay env s).outputValue =
      if s.isEditing then s.currentValue else styledOutput env s.currentValue := by
  unfold updateDisplay; split <;> simp_all

@[simp] theorem updateDisplay_displayText (env : Env α) (s : NumboxState α) :
    (updateDisplay env s).displayText =
      if s.isEditing then .str s.editText
      else styledDisplay env s.currentValue := by
  unfold updateDisplay; split <;> simp_all

@[simp] theorem updateInitialValue_currentValue (env : Env α)
    (s : NumboxState α) :
    (updateInitialValue env s).currentValue = s.currentValue := by
  unfold updateInitialValue
  split
  · split <;> rfl
  · rfl

@[simp] theorem updateInitialValue_minValue (env : Env α)
    (s : NumboxState α) :
    (updateInitialValue env s).minValue = s.minValue := by
  unfold updateInitialValue
  split
  · split <;> rfl
  · rfl

@[simp] theorem updateInitialValue_maxValue (env : Env α)
    (s : NumboxState α) :
    (updateInitialValue env s).maxValue = s.maxValue := by
  unfold updateInitialValue
  split
  · split <;> rfl
  · rfl

@[simp] theorem updateInitialValue_activeState (env : Env α)
    (s : NumboxState α) :
    (updateInitialValue env s).activeState = s.activeState := by
  unfold updateInitialValue
  split
  · split <;> rfl
  · rfl

@[simp] theorem updateInitialValue_isEditing (env : Env α)
    (s : NumboxState α) :
    (updateInitialValue env s).isEditing = s.isEditing := by
  unfold updateInitialValue
  split
  · split <;> rfl
  · rfl

@[simp] theorem updateInitialValue_editText (env : Env α)
    (s : NumboxState α) :
    (updateInitialValue env s).editText = s.editText := by
  unfold updateInitialValue
  split
  · split <;> rfl
  · rfl

@[simp] theorem updateInitialValue_outputValue (env : Env α)
    (s : NumboxState α) :
    (updateInitialValue env s).outputValue = s.outputValue := by
  unfold updateInitialValue
  split
  · split <;> rfl
  · rfl

end Lemmas

section RangeLemmas

variable {α : Type} [LinearOrderedField α]

theorem updateRange_of_malformed (env : Env α) (s : NumboxState α)
    (h : env.attrs.range = none ∨
      ∃ l, env.attrs.range = some l ∧ l.length < 2) :
    updateRange env s = (s, []) := by
  unfold updateRange
  rcases h with h | ⟨l, h, hl⟩
  · rw [h]
  · rw [h]
    rcases l with _ | ⟨a, _ | ⟨b, t⟩⟩
    · rfl
    · rfl
    · simp only [List.length_cons] at hl
      omega

theorem updateRange_minValue (env : Env α) (s : NumboxState α) :
    (updateRange env s).1.minValue = refreshedMin env s := by
  unfold updateRange refreshedMin
  rcases hr : env.attrs.range with _ | (_ | ⟨a, _ | ⟨b, t⟩⟩)
  · rfl
  · rfl
  · rfl
  · by_cases hc : clampJS a b s.currentValue ≠ s.currentValue <;> simp [hc]

theorem updateRange_maxValue (env : Env α) (s : NumboxState α) :
    (updateRange env s).1.maxValue = refreshedMax env s := by
  unfold updateRange refreshedMax
  rcases hr : env.attrs.range with _ | (_ | ⟨a, _ | ⟨b, t⟩⟩)
  · rfl
  · rfl
  · rfl
  · by_cases hc : clampJS a b s.currentValue ≠ s.currentValue <;> simp [hc]

theorem updateRange_activeState (env : Env α) (s : NumboxState α) :
    (updateRange env s).1.activeState = s.activeState := by
  unfold updateRange
  rcases hr : env.attrs.range with _ | (_ | ⟨a, _ | ⟨b, t⟩⟩)
  · rfl
  · rfl
  · rfl
  · by_cases hc : clampJS a b s.currentValue ≠ s.currentValue <;> simp [hc]

theorem updateRange_isEditing (env : Env α) (s : NumboxState α) :
    (updateRange env s).1.isEditing = s.isEditing := by
  unfold updateRange
  rcases hr : env.attrs.range with _ | (_ | ⟨a, _ | ⟨b, t⟩⟩)
  · rfl
  · rfl
  · rfl
  · by_cases hc : clampJS a b s.currentValue ≠ s.currentValue <;> simp [hc]

theorem updateRange_editText (env : Env α) (s : NumboxState α) :
    (updateRange env s).1.editText = s.editText := by
  unfold updateRange
  rcases hr : env.attrs.range with _ | (_ | ⟨a, _ | ⟨b, t⟩⟩)
  · rfl
  · rfl
  · rfl
  · by_cases hc : clampJS a b s.currentValue ≠ s.currentValue <;> simp [hc]

theorem updateRange_currentValue_of_wf (env : Env α) (s : NumboxState α)
    {a b : α} {t : List α} (h : env.attrs.range = some (a :: b :: t)) :
    (updateRange env s).1.currentValue = clampJS a b s.currentValue := by
  unfold updateRange
  rw [h]
  by_cases hc : clampJS a b s.currentValue ≠ s.currentValue
  · simp [hc]
  · push_neg at hc
    simp [hc]

theorem updateRange_of_noChange (env : Env α) (s : NumboxState α)
    (h : clampJS (refreshedMin env s) (refreshedMax env s) s.currentValue
      = s.currentValue) :
    updateRange env s =
      ({ s with minValue := refreshedMin env s,
                maxValue := refreshedMax env s }, []) := by
  unfold updateRange
  rcases hr : env.attrs.range with _ | (_ | ⟨a, _ | ⟨b, t⟩⟩)
  · simp only [refreshedMin, refreshedMax, hr]
  · simp only [refreshedMin, refreshedMax, hr]
  · simp only [refreshedMin, refreshedMax, hr]
  · simp only [refreshedMin, refreshedMax, hr] at h ⊢
    rw [if_neg (fun hn => hn h)]

end RangeLemmas

section ValueLemmas

variable {α : Type} [LinearOrderedField α]

theorem msg_float_minValue (env : Env α) (x : α) (s : NumboxState α) :
    (msg_float env x s).1.minValue = refreshedMin env s := by
  simp [msg_float, updateRange_minValue]

theorem msg_float_maxValue (env : Env α) (x : α) (s : NumboxState α) :
    (msg_float env x s).1.maxValue = refreshedMax env s := by
  simp [msg_float, updateRange_maxValue]

theorem msg_float_currentValue (env : Env α) (x : α) (s : NumboxState α) :
    (msg_float env x s).1.currentValue =
      clampJS (refreshedMin env s) (refreshedMax env s) x := by
  simp [msg_float, updateRange_minValue, updateRange_maxValue]

theorem setvalueof_currentValue (env : Env α) (x : α) (s : NumboxState α) :
    (setvalueof env x s).1.currentValue =
      clampJS (refreshedMin env s) (refreshedMax env s) x := by
  simp [setvalueof, updateRange_minValue, updateRange_maxValue]

end ValueLemmas

/-! ## Concrete fixtures for witnesses and counterexamples -/

/-- A quiescent widget state over `ℚ`: value 5 in the default range
[-100, 100], active, not editing, not dragging. -/
def baseState : NumboxState ℚ :=
  { currentValue := 5, minValue := -100, maxValue := 100, initialValue := 0,
    textJustification := "centre", activeState := true,
    displayText := .rounded 5 "", outputValue := 5,
    isDragging := false, dragStartY := 0, dragStartValue := 0, lastDragY := 0,
    cursorOrigin := (0, 0), isEditing := false, editText := "",
    hasFocus := false, showCursor := true, cursorTimerRunning := false,
    clickedInside := false }

/-- An attribute store over `ℚ` with every attribute absent/disabled. -/
def baseAttrs : BoxAttrs ℚ := ⟨none, false, none, none, []⟩

/-- A `ℚ` environment; the host `Math.pow` is irrelevant outside the
decibel style and is stubbed with zero. -/
def qEnv (attrs : BoxAttrs ℚ) : Env ℚ := ⟨attrs, fun _ _ => 0⟩

/-! ## Claims -/

/-- C1: a setValue request (`msg_float` / `setvalueof`) first refreshes the
cached range and then sets `currentValue` to `clamp(x, minValue, maxValue)`:
the result equals `x` inside the refreshed bounds, the refreshed min below
them, and the refreshed max above them. -/
theorem setValue_clamps_to_range {α : Type} [LinearOrderedField α]
    (env : Env α) (s : NumboxState α) (x : α)
    (h : refreshedMin env s ≤ refreshedMax env s) :
    ((msg_float env x s).1.minValue = refreshedMin env s
      ∧ (msg_float env x s).1.maxValue = refreshedMax env s)
    ∧ (refreshedMin env s ≤ x → x ≤ refreshedMax env s →
        (msg_float env x s).1.currentValue = x)
    ∧ (x < refreshedMin env s →
        (msg_float env x s).1.currentValue = refreshedMin env s)
    ∧ (refreshedMax env s < x →
        (msg_float env x s).1.currentValue = refreshedMax env s)
    ∧ (refreshedMin env s ≤ x → x ≤ refreshedMax env s →
        (setvalueof env x s).1.currentValue = x)
    ∧ (x < refreshedMin env s →
        (setvalueof env x s).1.currentValue = refreshedMin env s)
    ∧ (refreshedMax env s < x →
        (setvalueof env x s).1.currentValue = refreshedMax env s) := by
  refine ⟨⟨msg_float_minValue env x s, msg_float_maxValue env x s⟩,
    fun h1 h2 => ?_, fun h1 => ?_, fun h1 => ?_,
    fun h1 h2 => ?_, fun h1 => ?_, fun h1 => ?_⟩
  · rw [msg_float_currentValue, clampJS_of_mem h1 h2]
  · rw [msg_float_currentValue, clampJS_of_lt h h1]
  · rw [msg_float_currentValue, clampJS_of_gt h h1]
  · rw [setvalueof_currentValue, clampJS_of_mem h1 h2]
  · rw [setvalueof_currentValue, clampJS_of_lt h h1]
  · rw [setvalueof_currentValue, clampJS_of_gt h h1]

/-- Witness for C1 at a concrete input: with `_parameter_range = [0, 10]`,
sending 50 lands on 10, sending 3 stays at 3, sending -7 lands on 0. -/
theorem setValue_clamps_to_range_witness :
    (msg_float (qEnv ⟨some [0, 10], false, none, none, []⟩) (50 : ℚ)
      baseState).1.currentValue = 10
    ∧ (msg_float (qEnv ⟨some [0, 10], false, none, none, []⟩) (3 : ℚ)
        baseState).1.currentValue = 3
    ∧ (setvalueof (qEnv ⟨some [0, 10], false, none, none, []⟩) (-7 : ℚ)
        baseState).1.currentValue = 0 := by
  have h := setValue_clamps_to_range
    (qEnv ⟨some [0, 10], false, none, none, []⟩) baseState (50 : ℚ) (by decide)
  have h3 := setValue_clamps_to_range
    (qEnv ⟨some [0, 10], false, none, none, []⟩) baseState (3 : ℚ) (by decide)
  have h7 := setValue_clamps_to_range
    (qEnv ⟨some [0, 10], false, none, none, []⟩) baseState (-7 : ℚ) (by decide)
  exact ⟨(h.2.2.2.1 (by decide)).trans (by decide),
    h3.2.1 (by decide) (by decide),
    (h7.2.2.2.2.2.1 (by decide)).trans (by decide)⟩

section MoreFieldLemmas

variable {α : Type} [LinearOrderedField α]

theorem updateRange_hasFocus (env : Env α) (s : NumboxState α) :
    (updateRange env s).1.hasFocus = s.hasFocus := by
  unfold updateRange
  rcases hr : env.attrs.range with _ | (_ | ⟨a, _ | ⟨b, t⟩⟩)
  · rfl
  · rfl
  · rfl
  · by_cases hc : clampJS a b s.currentValue ≠ s.currentValue <;> simp [hc]

theorem updateRange_clickedInside (env : Env α) (s : NumboxState α) :
    (updateRange env s).1.clickedInside = s.clickedInside := by
  unfold updateRange
  rcases hr : env.attrs.range with _ | (_ | ⟨a, _ | ⟨b, t⟩⟩)
  · rfl
  · rfl
  · rfl
  · by_cases hc : clampJS a b s.currentValue ≠ s.currentValue <;> simp [hc]

@[simp] theorem updateInitialValue_hasFocus (env : Env α)
    (s : NumboxState α) :
    (updateInitialValue env s).hasFocus = s.hasFocus := by
  unfold updateInitialValue
  split
  · split <;> rfl
  · rfl

@[simp] theorem updateInitialValue_clickedInside (env : Env α)
    (s : NumboxState α) :
    (updateInitialValue env s).clickedInside = s.clickedInside := by
  unfold updateInitialValue
  split
  · split <;> rfl
  · rfl

theorem commitEdit_hasFocus (env : Env α) (s : NumboxState α) :
    (commitEdit env s).1.hasFocus = s.hasFocus := by
  unfold commitEdit
  split
  · rcases hp : parseFloatJS (α := α) s.editText with _ | v <;> simp [hp]
  · rfl

theorem commitEdit_isEditing (env : Env α) (s : NumboxState α) :
    (commitEdit env s).1.isEditing = false := by
  unfold commitEdit
  split
  · rcases hp : parseFloatJS (α := α) s.editText with _ | v <;> simp [hp]
  · simp_all

/-- Every justification candidate is one of the three normalized words. -/
theorem mem_foundJustifications {args : List String} {j : String}
    (hj : j ∈ foundJustifications args) :
    j = "left" ∨ j = "centre" ∨ j = "right" := by
  unfold foundJustifications at hj
  rw [List.mem_filterMap] at hj
  obtain ⟨a0, _, ha⟩ := hj
  by_cases hcond : (String.mk (a0.data.map Char.toLower) = "left"
      || String.mk (a0.data.map Char.toLower) = "centre"
      || String.mk (a0.data.map Char.toLower) = "center"
      || String.mk (a0.data.map Char.toLower) = "right") = true
  · rw [if_pos hcond] at ha
    injection ha with ha
    simp only [Bool.or_eq_true, decide_eq_true_eq] at hcond
    by_cases hc : String.mk (a0.data.map Char.toLower) = "center"
    · rw [if_pos hc] at ha
      right; left; exact ha.symm
    · rw [if_neg hc] at ha
      rcases hcond with ((h | h) | h) | h
      · left; rw [← ha, h]
      · right; left; rw [← ha, h]
      · exact absurd h hc
      · right; right; rw [← ha, h]
  · rw [if_neg hcond] at ha
    exact absurd ha (by simp)

end MoreFieldLemmas

/-- C8: a range refresh that reads a malformed range (missing attribute, or
an array of length < 2) is a no-op: `minValue`, `maxValue` and
`currentValue` keep their prior values and nothing is emitted. -/
theorem malformed_range_noop {α : Type} [LinearOrderedField α]
    (env : Env α) (s : NumboxState α)
    (h : env.attrs.range = none ∨
      ∃ l, env.attrs.range = some l ∧ l.length < 2) :
    updateRange env s = (s, []) :=
  updateRange_of_malformed env s h

/-- Witness for C8: a one-element range array `[3]` leaves the state and
emission stream untouched. -/
theorem malformed_range_noop_witness :
    updateRange (qEnv ⟨some [3], false, none, none, []⟩) baseState
      = (baseState, []) :=
  malformed_range_noop _ baseState (Or.inr ⟨[3], rfl, by decide⟩)

/-- C10: `restoreInternalState` assigns `currentValue`, `minValue`,
`maxValue`, `initialValue`, `textJustification` and `activeState` verbatim
from the saved record, with no clamping (a stored value outside the stored
range is restored unchanged) and no emission on the primary outlet. -/
theorem restore_verbatim {α : Type} [LinearOrderedField α] (env : Env α)
    (r : SaveRecord α) (s : NumboxState α) :
    (restoreInternalState env r s).1.currentValue = r.value
    ∧ (restoreInternalState env r s).1.minValue = r.min
    ∧ (restoreInternalState env r s).1.maxValue = r.max
    ∧ (restoreInternalState env r s).1.initialValue = r.initial
    ∧ (restoreInternalState env r s).1.textJustification = r.justification
    ∧ (restoreInternalState env r s).1.activeState = r.active
    ∧ (restoreInternalState env r s).2 = []
    ∧ ((r.value < r.min ∨ r.max < r.value) →
        (restoreInternalState env r s).1.currentValue = r.value) := by
  refine ⟨?_, ?_, ?_, ?_, ?_, ?_, rfl, fun _ => ?_⟩ <;>
    simp [restoreInternalState]

/-- Witness for C10: a record whose stored value 50 lies outside its stored
range [0, 10] is restored verbatim, without clamping or emission. -/
theorem restore_verbatim_witness :
    (restoreInternalState (qEnv baseAttrs)
      (⟨50, 0, 10, 0, "left", true⟩ : SaveRecord ℚ) baseState).1.currentValue
        = 50
    ∧ (restoreInternalState (qEnv baseAttrs)
        (⟨50, 0, 10, 0, "left", true⟩ : SaveRecord ℚ) baseState).2 = [] := by
  have h := restore_verbatim (qEnv baseAttrs)
    (⟨50, 0, 10, 0, "left", true⟩ : SaveRecord ℚ) baseState
  exact ⟨h.2.2.2.2.2.2.2 (by decide), h.2.2.2.2.2.2.1⟩

/-- C9: justification parsing scans the initialization arguments
case-insensitively; exactly one recognized word sets that justification
(with "center" normalized to "centre"), while zero or more than one
recognized word resolves to "centre". -/
theorem justification_parsing {α : Type} [LinearOrderedField α]
    (env : Env α) (s : NumboxState α) :
    (∀ j, foundJustifications env.attrs.jsarguments = [j] →
        (parseJustificationArgs env s).textJustification = j
        ∧ (j = "left" ∨ j = "centre" ∨ j = "right"))
    ∧ (1 < (foundJustifications env.attrs.jsarguments).length →
        (parseJustificationArgs env s).textJustification = "centre")
    ∧ (foundJustifications env.attrs.jsarguments = [] →
        (parseJustificationArgs env s).textJustification = "centre") := by
  refine ⟨fun j hj => ⟨?_, ?_⟩, fun hlen => ?_, fun hnil => ?_⟩
  · unfold parseJustificationArgs
    rw [hj]
    rfl
  · exact mem_foundJustifications (hj ▸ List.mem_singleton.mpr rfl)
  · unfold parseJustificationArgs
    rw [if_pos hlen]
  · unfold parseJustificationArgs
    rw [hnil]
    rfl

/-- Witness for C9: `["left","right"]` is a conflict resolved to "centre",
`["LEFT"]` case-insensitively selects "left", `["Center"]` normalizes to
"centre", and no arguments default to "centre". -/
theorem justification_parsing_witness :
    (parseJustificationArgs
      (qEnv ⟨none, false, none, none, ["left", "right"]⟩)
      baseState).textJustification = "centre"
    ∧ (parseJustificationArgs
        (qEnv ⟨none, false, none, none, ["LEFT"]⟩)
        baseState).textJustification = "left"
    ∧ (parseJustificationArgs
        (qEnv ⟨none, false, none, none, ["Center"]⟩)
        baseState).textJustification = "centre"
    ∧ (parseJustificationArgs
        (qEnv ⟨none, false, none, none, []⟩)
        baseState).textJustification = "centre" := by
  refine ⟨?_, ?_, ?_, ?_⟩
  · exact (justification_parsing
      (qEnv ⟨none, false, none, none, ["left", "right"]⟩) baseState).2.1
      (by decide)
  · exact ((justification_parsing
      (qEnv ⟨none, false, none, none, ["LEFT"]⟩) baseState).1 "left"
      (by decide)).1
  · exact ((justification_parsing
      (qEnv ⟨none, false, none, none, ["Center"]⟩) baseState).1 "centre"
      (by decide)).1
  · exact (justification_parsing
      (qEnv ⟨none, false, none, none, []⟩) baseState).2.2 (by decide)

/-- C7: a pointer-down inside the widget takes focus (and flags the local
click); a global left-click while focused schedules the deferred check and
does not itself change focus; when the deferred check finds the local flag
unset it drops focus and force-commits any active edit session; idle-out
never changes focus. -/
theorem focus_protocol {α : Type} [LinearOrderedField α] (env : Env α) :
    (∀ (s : NumboxState α) (y : α),
        (onclick env y s).1.hasFocus = true
        ∧ (onclick env y s).1.clickedInside = true)
    ∧ (∀ (s : NumboxState α) (lc : Bool) (gx gy : α),
        (globalMouse lc gx gy s).1.hasFocus = s.hasFocus
        ∧ (globalMouse lc gx gy s).2 = (lc && s.hasFocus))
    ∧ (∀ s : NumboxState α, s.clickedInside = false →
        (globalMouseDeferred env s).1.hasFocus = false
        ∧ (globalMouseDeferred env s).1.isEditing = false)
    ∧ (∀ s : NumboxState α, (onidleout s).1.hasFocus = s.hasFocus) := by
  refine ⟨fun s y => ⟨?_, ?_⟩, fun s lc gx gy => ⟨rfl, rfl⟩,
    fun s hs => ⟨?_, ?_⟩, fun s => ?_⟩
  · simp [onclick, updateRange_hasFocus]
  · simp [onclick, updateRange_clickedInside]
  · unfold globalMouseDeferred
    rw [hs]
    simp only [Bool.false_eq_true, if_false]
    by_cases he : ({ s with hasFocus := false } : NumboxState α).isEditing = true
    · simp only [if_pos he, commitEdit_hasFocus]
    · simp only [if_neg he]
  · unfold globalMouseDeferred
    rw [hs]
    simp only [Bool.false_eq_true, if_false]
    by_cases he : ({ s with hasFocus := false } : NumboxState α).isEditing = true
    · simp only [if_pos he, commitEdit_isEditing]
    · simp only [if_neg he]
      simp only [Bool.not_eq_true] at he
      exact he
  · unfold onidleout
    split <;> rfl

/-- Witness for C7: a click takes focus; the deferred check on an
unflagged state with an open edit drops focus and closes the edit. -/
theorem focus_protocol_witness :
    (onclick (qEnv baseAttrs) (3 : ℚ) baseState).1.hasFocus = true
    ∧ (globalMouseDeferred (qEnv baseAttrs)
        { baseState with hasFocus := true, isEditing := true,
                         editText := "42" }).1.hasFocus = false
    ∧ (globalMouseDeferred (qEnv baseAttrs)
        { baseState with hasFocus := true, isEditing := true,
                         editText := "42" }).1.isEditing = false := by
  have h := focus_protocol (α := ℚ) (qEnv baseAttrs)
  exact ⟨(h.1 baseState 3).1,
    (h.2.2.1 _ rfl).1, (h.2.2.1 _ rfl).2⟩

/-- C4: a range refresh that reads a well-formed `[a, b]` installs the new
bounds and re-clamps `currentValue` into them; it emits exactly once on the
primary outlet when the clamped value moved and the widget is active, and
emits nothing when the value is unchanged or the widget is inactive. -/
theorem range_refresh_reclamps {α : Type} [LinearOrderedField α]
    (env : Env α) (s : NumboxState α) (a b : α) (t : List α)
    (hr : env.attrs.range = some (a :: b :: t)) (hab : a ≤ b) :
    (updateRange env s).1.minValue = a
    ∧ (updateRange env s).1.maxValue = b
    ∧ (updateRange env s).1.currentValue = clampJS a b s.currentValue
    ∧ a ≤ (updateRange env s).1.currentValue
    ∧ (updateRange env s).1.currentValue ≤ b
    ∧ (clampJS a b s.currentValue ≠ s.currentValue → s.activeState = true →
        (updateRange env s).2 = [.outlet0 (if s.isEditing = true
          then clampJS a b s.currentValue
          else styledOutput env (clampJS a b s.currentValue))])
    ∧ (clampJS a b s.currentValue = s.currentValue →
        (updateRange env s).2 = [])
    ∧ (s.activeState = false → (updateRange env s).2 = []) := by
  have hmin : (updateRange env s).1.minValue = a := by
    rw [updateRange_minValue]
    unfold refreshedMin
    rw [hr]
  have hmax : (updateRange env s).1.maxValue = b := by
    rw [updateRange_maxValue]
    unfold refreshedMax
    rw [hr]
  have hcur := updateRange_currentValue_of_wf env s hr
  refine ⟨hmin, hmax, hcur, ?_, ?_, fun hc hact => ?_, fun hc => ?_,
    fun hact => ?_⟩
  · rw [hcur]; exact lo_le_clampJS
  · rw [hcur]; exact clampJS_le_hi hab
  · unfold updateRange
    rw [hr]
    simp [hc, hact]
  · unfold updateRange
    rw [hr]
    simp [hc]
  · unfold updateRange
    rw [hr]
    by_cases hc : clampJS a b s.currentValue ≠ s.currentValue
    · simp [hc, hact]
    · push_neg at hc
      simp [hc]

/-- Witness for C4: with `currentValue = 50` and the range narrowed to
`[0, 10]`, the value re-clamps to 10 and exactly one output of 10 fires
while active; an inactive widget emits nothing, and a value already inside
the new range emits nothing. -/
theorem range_refresh_reclamps_witness :
    (updateRange (qEnv ⟨some [0, 10], false, none, none, []⟩)
      { baseState with currentValue := 50, outputValue := 50 }).1.currentValue
        = 10
    ∧ (updateRange (qEnv ⟨some [0, 10], false, none, none, []⟩)
        { baseState with currentValue := 50, outputValue := 50 }).2
          = [.outlet0 10]
    ∧ (updateRange (qEnv ⟨some [0, 10], false, none, none, []⟩)
        { baseState with currentValue := 50, outputValue := 50,
                         activeState := false }).2 = []
    ∧ (updateRange (qEnv ⟨some [0, 10], false, none, none, []⟩)
        baseState).2 = [] := by
  have h1 := range_refresh_reclamps (qEnv ⟨some [0, 10], false, none, none, []⟩)
    { baseState with currentValue := 50, outputValue := 50 } 0 10 [] rfl
    (by decide)
  have h2 := range_refresh_reclamps (qEnv ⟨some [0, 10], false, none, none, []⟩)
    { baseState with currentValue := 50, outputValue := 50,
                     activeState := false } 0 10 [] rfl (by decide)
  have h3 := range_refresh_reclamps (qEnv ⟨some [0, 10], false, none, none, []⟩)
    baseState 0 10 [] rfl (by decide)
  refine ⟨h1.2.2.1.trans (by decide), ?_, h2.2.2.2.2.2.2.2 rfl,
    h3.2.2.2.2.2.2.1 (by decide)⟩
  · rw [h1.2.2.2.2.2.1 (by decide) rfl]
    decide

/-- C3 counterexample: at a concrete quiescent state, `msg_float` called
with the current value changes neither `currentValue` nor `outputValue`,
yet still emits the (unchanged) output on the primary outlet — a redundant
emission, contradicting the claim's "never triggers a redundant emission". -/
theorem setValue_idempotent_counterexample :
    (msg_float (qEnv baseAttrs) (5 : ℚ) baseState).1.currentValue
      = baseState.currentValue
    ∧ (msg_float (qEnv baseAttrs) (5 : ℚ) baseState).1.outputValue
      = baseState.outputValue
    ∧ baseState.currentValue = 5
    ∧ Emission.outlet0 (5 : ℚ) ∈ (msg_float (qEnv baseAttrs) (5 : ℚ)
        baseState).2 := by
  decide

/-- C3 amended: when the refreshed range still contains `currentValue` and
the cached output is consistent, `setValue(currentValue)` leaves
`currentValue` and `outputValue` unchanged — but it does emit the unchanged
output on the primary outlet whenever the widget is active (plus a client
notification); only an inactive widget avoids the redundant emission. -/
theorem setValue_idempotent_amended {α : Type} [LinearOrderedField α]
    (env : Env α) (s : NumboxState α)
    (h : clampJS (refreshedMin env s) (refreshedMax env s) s.currentValue
      = s.currentValue)
    (hed : s.isEditing = false)
    (hout : s.outputValue = styledOutput env s.currentValue) :
    (msg_float env s.currentValue s).1.currentValue = s.currentValue
    ∧ (msg_float env s.currentValue s).1.outputValue = s.outputValue
    ∧ (s.activeState = true →
        (msg_float env s.currentValue s).2 = [.notify, .outlet0 s.outputValue])
    ∧ (s.activeState = false →
        (msg_float env s.currentValue s).2 = [.notify]) := by
  have hr := updateRange_of_noChange env s h
  unfold msg_float
  rw [hr]
  refine ⟨?_, ?_, fun hact => ?_, fun hact => ?_⟩
  · simp [h, hed]
  · simp [h, hed, hout]
  · simp [h, hed, hout, hact]
  · simp [h, hed, hout, hact]

/-- Witness for the amended C3: re-sending the current value 5 keeps the
state fixed and emits exactly one (redundant) output of 5 while active. -/
theorem setValue_idempotent_amended_witness :
    (msg_float (qEnv baseAttrs) baseState.currentValue
      baseState).1.currentValue = 5
    ∧ (msg_float (qEnv baseAttrs) baseState.currentValue baseState).2
      = [.notify, .outlet0 5] := by
  have h := setValue_idempotent_amended (qEnv baseAttrs) baseState
    (by decide) rfl (by decide)
  exact ⟨h.1.trans (by decide), (h.2.2.1 rfl).trans (by decide)⟩

section DbLemmas

variable {α : Type} [LinearOrderedField α]

theorem styledOutput_db_low (env : Env α) (v : α)
    (h4 : getUnitStyle env.attrs = 4) (hv : v ≤ -80) :
    styledOutput env v = 0 := by
  unfold styledOutput
  rw [h4]
  exact if_pos hv

theorem styledOutput_db_high (env : Env α) (v : α)
    (h4 : getUnitStyle env.attrs = 4) (hv : ¬ v ≤ -80) :
    styledOutput env v = dbtoa env v := by
  unfold styledOutput
  rw [h4]
  exact if_neg hv

theorem styledDisplay_db_low (env : Env α) (v : α)
    (h4 : getUnitStyle env.attrs = 4) (hv : v ≤ -80) :
    styledDisplay env v = .str "-inf" := by
  unfold styledDisplay
  rw [h4]
  exact if_pos hv

theorem styledDisplay_db_high (env : Env α) (v : α)
    (h4 : getUnitStyle env.attrs = 4) (hv : ¬ v ≤ -80) :
    styledDisplay env v = .fixed v 1 " dB" := by
  unfold styledDisplay
  rw [h4]
  exact if_neg hv

theorem commitEdit_of_parse_none (env : Env α) (s : NumboxState α)
    (hed : s.isEditing = true)
    (hp : parseFloatJS (α := α) s.editText = none) :
    commitEdit env s =
      (updateDisplay env
        { s with cursorTimerRunning := false, isEditing := false }, []) := by
  unfold commitEdit
  split
  · rw [hp]
  · simp_all

end DbLemmas

/-- The decibel-style environment and the editing state used to exercise
the unparseable-commit branch over the reals. -/
def dbAttrs : BoxAttrs ℝ := ⟨none, false, none, some 4, []⟩

/-- A decibel-style widget mid-edit with the unparseable buffer "-" and
`currentValue = outputValue = -6` (edit mode pins the output to the
current value). -/
def dbEditState : NumboxState ℝ :=
  { currentValue := -6, minValue := -100, maxValue := 100,
    initialValue := 0, textJustification := "centre", activeState := true,
    displayText := .str "-", outputValue := -6, isDragging := false,
    dragStartY := 0, dragStartValue := 0, lastDragY := 0,
    cursorOrigin := (0, 0), isEditing := true, editText := "-",
    hasFocus := true, showCursor := true, cursorTimerRunning := true,
    clickedInside := false }

/-- C5 counterexample: committing the unparseable buffer "-" under the
decibel unit style at `currentValue = -6` emits nothing and keeps
`currentValue` and the bounds, but `outputValue` does change: edit mode had
pinned it to `currentValue = -6`, and the closing `updateDisplay` replaces
it with the amplitude conversion `10^(-6/20) > 0`.  This contradicts the
claim's "currentValue, outputValue, minValue and maxValue are left
unchanged". -/
theorem commit_edit_unparseable_counterexample :
    (commitEdit (⟨dbAttrs, fun b e => b ^ e⟩ : Env ℝ) dbEditState).2 = []
    ∧ (commitEdit (⟨dbAttrs, fun b e => b ^ e⟩ : Env ℝ)
        dbEditState).1.currentValue = -6
    ∧ (commitEdit (⟨dbAttrs, fun b e => b ^ e⟩ : Env ℝ)
        dbEditState).1.minValue = -100
    ∧ (commitEdit (⟨dbAttrs, fun b e => b ^ e⟩ : Env ℝ)
        dbEditState).1.maxValue = 100
    ∧ dbEditState.outputValue = -6
    ∧ (commitEdit (⟨dbAttrs, fun b e => b ^ e⟩ : Env ℝ)
        dbEditState).1.outputValue ≠ -6 := by
  have hrun := commitEdit_of_parse_none
    (⟨dbAttrs, fun b e => b ^ e⟩ : Env ℝ) dbEditState rfl rfl
  refine ⟨by rw [hrun], by rw [hrun]; exact rfl, by rw [hrun]; exact rfl,
    by rw [hrun]; exact rfl, rfl, ?_⟩
  rw [hrun]
  have hno : ¬ ((-6 : ℝ) ≤ -80) := by norm_num
  have h4 : getUnitStyle (⟨dbAttrs, fun b e => b ^ e⟩ : Env ℝ).attrs = 4 :=
    rfl
  have hstep : (updateDisplay (⟨dbAttrs, fun b e => b ^ e⟩ : Env ℝ)
      { dbEditState with cursorTimerRunning := false,
                         isEditing := false }).outputValue
      = styledOutput (⟨dbAttrs, fun b e => b ^ e⟩ : Env ℝ) (-6 : ℝ) := rfl
  have hdb : dbtoa (⟨dbAttrs, fun b e => b ^ e⟩ : Env ℝ) (-6 : ℝ)
      = (10 : ℝ) ^ ((-6 : ℝ) / 20) := rfl
  rw [hstep, styledOutput_db_high _ _ h4 hno, hdb]
  have hpos : (0 : ℝ) < (10 : ℝ) ^ ((-6 : ℝ) / 20) :=
    Real.rpow_pos_of_pos (by norm_num) _
  intro hcontra
  rw [hcontra] at hpos
  norm_num at hpos

/-- C5 amended: on commit of an active edit session the blink timer is
cancelled and the session closes; a parseable buffer is clamped, applied as
`currentValue` and emitted (with that clamped value) when active; an
unparseable buffer leaves `currentValue`, `minValue` and `maxValue`
unchanged and emits nothing — but `outputValue` is recomputed from the
unchanged `currentValue` per the unit style rather than kept verbatim
(under the decibel style this differs from its edit-mode value). -/
theorem commit_edit_spec {α : Type} [LinearOrderedField α]
    (env : Env α) (s : NumboxState α) (hed : s.isEditing = true) :
    (commitEdit env s).1.cursorTimerRunning = false
    ∧ (commitEdit env s).1.isEditing = false
    ∧ (∀ v, parseFloatJS (α := α) s.editText = some v →
        (commitEdit env s).1.currentValue = clampJS s.minValue s.maxValue v
        ∧ (s.activeState = true → (commitEdit env s).2
            = [.notify, .outlet0 (clampJS s.minValue s.maxValue v)])
        ∧ (s.activeState = false → (commitEdit env s).2 = [.notify]))
    ∧ (parseFloatJS (α := α) s.editText = none →
        (commitEdit env s).1.currentValue = s.currentValue
        ∧ (commitEdit env s).1.minValue = s.minValue
        ∧ (commitEdit env s).1.maxValue = s.maxValue
        ∧ (commitEdit env s).2 = []
        ∧ (commitEdit env s).1.outputValue
            = styledOutput env s.currentValue) := by
  refine ⟨?_, commitEdit_isEditing env s, fun v hp => ?_, fun hp => ?_⟩
  · unfold commitEdit
    split
    · rcases hq : parseFloatJS (α := α) s.editText with _ | w <;> simp [hq]
    · simp_all
  · unfold commitEdit
    split
    · rw [hp]
      refine ⟨by simp, fun hact => ?_, fun hact => ?_⟩ <;> simp [hed, hact]
    · simp_all
  · rw [commitEdit_of_parse_none env s hed hp]
    refine ⟨by simp, by simp, by simp, rfl, ?_⟩
    rw [updateDisplay_outputValue]
    simp

/-- Witness for the amended C5: committing "42" in range [-100, 100] while
active applies 42 and emits it once; the counterexample theorem above
exercises the unparseable branch. -/
theorem commit_edit_spec_witness :
    (commitEdit (qEnv baseAttrs)
      { baseState with isEditing := true, editText := "42",
                       cursorTimerRunning := true }).1.currentValue = 42
    ∧ (commitEdit (qEnv baseAttrs)
        { baseState with isEditing := true, editText := "42",
                         cursorTimerRunning := true }).1.isEditing = false
    ∧ (commitEdit (qEnv baseAttrs)
        { baseState with isEditing := true, editText := "42",
                         cursorTimerRunning := true }).1.cursorTimerRunning
      = false
    ∧ (commitEdit (qEnv baseAttrs)
        { baseState with isEditing := true, editText := "42",
                         cursorTimerRunning := true }).2
      = [.notify, .outlet0 42] := by
  have h := commit_edit_spec (qEnv baseAttrs)
    { baseState with isEditing := true, editText := "42",
                     cursorTimerRunning := true } rfl
  have h1 : parseFloatJS (α := ℚ)
      ({ baseState with isEditing := true, editText := "42",
                        cursorTimerRunning := true } : NumboxState ℚ).editText
      = some (1 * ((digitsVal ['4', '2'] : ℕ) : ℚ)) := rfl
  have h2 : (1 * ((digitsVal ['4', '2'] : ℕ) : ℚ)) = 42 := by
    have : digitsVal ['4', '2'] = 42 := by decide
    rw [this]
    norm_num
  have hp : parseFloatJS (α := ℚ)
      ({ baseState with isEditing := true, editText := "42",
                        cursorTimerRunning := true } : NumboxState ℚ).editText
      = some 42 := by rw [h1, h2]
  refine ⟨((h.2.2.1 42 hp).1).trans (by decide), h.2.1, h.1, ?_⟩
  rw [(h.2.2.1 42 hp).2.1 rfl]
  decide

/-- C6: while dragging, an event whose tracked vertical offset exceeds the
30-unit threshold re-centers the system cursor to the drag origin and
resets `lastDragY` to the new pointer position without any value change or
primary-outlet emission; any other event applies
`currentValue + (lastDragY - y) * step` (fine step under shift, normal step
otherwise), clamped into the range. -/
theorem drag_boundary_and_step {α : Type} [LinearOrderedField α]
    (env : Env α) (s : NumboxState α) (y : α) (button shift : Bool)
    (hdrag : s.isDragging = true) :
    (30 < |s.lastDragY| →
        (ondrag env y button shift s).1.currentValue = s.currentValue
        ∧ (ondrag env y button shift s).1.outputValue = s.outputValue
        ∧ (ondrag env y button shift s).1.lastDragY = y
        ∧ (ondrag env y button shift s).2
            = [.hideCursor, .pupdate s.cursorOrigin.1 s.cursorOrigin.2]
        ∧ ∀ v : α, Emission.outlet0 v ∉ (ondrag env y button shift s).2)
    ∧ (¬ 30 < |s.lastDragY| →
        (ondrag env y button shift s).1.currentValue
          = clampJS s.minValue s.maxValue
              (s.currentValue + (s.lastDragY - y) *
                (if shift = true then fineStepSize else normalStepSize))) := by
  constructor
  · intro hthr
    unfold ondrag
    split <;>
      exact ⟨rfl, rfl, rfl, rfl, fun v hmem => by simp at hmem⟩
  · intro hthr
    unfold ondrag
    split <;>
    · dsimp only
      by_cases hc : clampJS s.minValue s.maxValue
          (s.currentValue + (s.lastDragY - y) *
            (if shift = true then fineStepSize else normalStepSize))
          ≠ s.currentValue
      · rw [if_pos hc]
        by_cases hb : button = true
        · rw [if_pos hb]
          simp
        · rw [if_neg hb]
          simp
      · rw [if_neg hc]
        push_neg at hc
        by_cases hb : button = true
        · rw [if_pos hb]
          simpa using hc.symm
        · rw [if_neg hb]
          simpa using hc.symm

/-- Witness for C6: with `lastDragY = 40` (beyond the threshold) the event
only re-centers the cursor, while from `currentValue = 0` a `deltaY = 10`
move yields 5 with the normal step and 1/5 (= 0.2) with the fine step. -/
theorem drag_boundary_and_step_witness :
    (ondrag (qEnv baseAttrs) (12 : ℚ) true false
      { baseState with isDragging := true, lastDragY := 40,
                       cursorOrigin := (7, 9) }).1.currentValue = 5
    ∧ (ondrag (qEnv baseAttrs) (12 : ℚ) true false
        { baseState with isDragging := true, lastDragY := 40,
                         cursorOrigin := (7, 9) }).2
      = [.hideCursor, .pupdate 7 9]
    ∧ (ondrag (qEnv baseAttrs) (0 : ℚ) true false
        { baseState with isDragging := true, lastDragY := 10,
                         currentValue := 0 }).1.currentValue = 5
    ∧ (ondrag (qEnv baseAttrs) (0 : ℚ) true true
        { baseState with isDragging := true, lastDragY := 10,
                         currentValue := 0 }).1.currentValue = 1 / 5 := by
  have hb := drag_boundary_and_step (qEnv baseAttrs) (12 : ℚ) true false
    (s := { baseState with isDragging := true, lastDragY := 40,
                           cursorOrigin := (7, 9) }) rfl
  have hn := drag_boundary_and_step (qEnv baseAttrs) (0 : ℚ) true false
    (s := { baseState with isDragging := true, lastDragY := 10,
                           currentValue := 0 }) rfl
  have hf := drag_boundary_and_step (qEnv baseAttrs) (0 : ℚ) true true
    (s := { baseState with isDragging := true, lastDragY := 10,
                           currentValue := 0 }) rfl
  refine ⟨(hb.1 (by norm_num)).1, (hb.1 (by norm_num)).2.2.2.1, ?_, ?_⟩
  · refine (hn.2 (by norm_num)).trans ?_
    norm_num [clampJS, normalStepSize, min_def, max_def, baseState]
  · refine (hf.2 (by norm_num)).trans ?_
    norm_num [clampJS, fineStepSize, min_def, max_def, baseState]

/-- Numeric bounds for the amplitude conversion at -6 dB: `10^(-6/20)` lies
strictly between `1/1.999` and `1/1.992`. -/
theorem dbtoa_neg6_bounds :
    (1 : ℝ) / 1.999 < (10 : ℝ) ^ ((-6 : ℝ) / 20)
    ∧ (10 : ℝ) ^ ((-6 : ℝ) / 20) < 1 / 1.992 := by
  have h10 : (0 : ℝ) < 10 := by norm_num
  have htpos : (0 : ℝ) < (10 : ℝ) ^ ((3 : ℝ) / 10) :=
    Real.rpow_pos_of_pos h10 _
  have ht10 : ((10 : ℝ) ^ ((3 : ℝ) / 10)) ^ (10 : ℕ) = 1000 := by
    rw [← Real.rpow_natCast ((10 : ℝ) ^ ((3 : ℝ) / 10)) 10,
      ← Real.rpow_mul h10.le]
    norm_num
  have hlow : (1.992 : ℝ) < (10 : ℝ) ^ ((3 : ℝ) / 10) := by
    refine lt_of_pow_lt_pow_left₀ 10 htpos.le ?_
    rw [ht10]
    norm_num
  have hhigh : (10 : ℝ) ^ ((3 : ℝ) / 10) < 1.999 := by
    refine lt_of_pow_lt_pow_left₀ 10 (by norm_num) ?_
    rw [ht10]
    norm_num
  have hneg : (10 : ℝ) ^ ((-6 : ℝ) / 20)
      = ((10 : ℝ) ^ ((3 : ℝ) / 10))⁻¹ := by
    rw [show ((-6 : ℝ) / 20) = -((3 : ℝ) / 10) by norm_num,
      Real.rpow_neg h10.le]
  constructor
  · rw [hneg, one_div]
    exact inv_strictAnti₀ htpos hhigh
  · rw [hneg, one_div]
    exact inv_strictAnti₀ (by norm_num) hlow

/-- C2: under the decibel unit style (outside edit mode), a current value at
or below -80 displays "-inf" with `outputValue = 0`, and a value above -80
displays to one decimal place with the "dB" suffix while `outputValue` is
the amplitude conversion `10^(currentValue/20)`; in particular at -6 the
output is within 0.001 of 0.5012. -/
theorem decibel_display_output (attrs : BoxAttrs ℝ) (s : NumboxState ℝ)
    (h4 : getUnitStyle attrs = 4) (hed : s.isEditing = false) :
    (s.currentValue ≤ -80 →
        (updateDisplay (⟨attrs, fun b e => b ^ e⟩ : Env ℝ) s).displayText
          = .str "-inf"
        ∧ (updateDisplay (⟨attrs, fun b e => b ^ e⟩ : Env ℝ) s).outputValue
          = 0)
    ∧ (¬ s.currentValue ≤ -80 →
        (updateDisplay (⟨attrs, fun b e => b ^ e⟩ : Env ℝ) s).displayText
          = .fixed s.currentValue 1 " dB"
        ∧ (updateDisplay (⟨attrs, fun b e => b ^ e⟩ : Env ℝ) s).outputValue
          = (10 : ℝ) ^ (s.currentValue / 20))
    ∧ (s.currentValue = -6 →
        |(updateDisplay (⟨attrs, fun b e => b ^ e⟩ : Env ℝ) s).outputValue
          - 0.5012| < 1 / 1000) := by
  refine ⟨fun hlo => ⟨?_, ?_⟩, fun hhi => ⟨?_, ?_⟩, fun h6 => ?_⟩
  · rw [updateDisplay_displayText, hed]
    simp only [Bool.false_eq_true, if_false]
    exact styledDisplay_db_low (⟨attrs, fun b e => b ^ e⟩ : Env ℝ)
      s.currentValue h4 hlo
  · rw [updateDisplay_outputValue, hed]
    simp only [Bool.false_eq_true, if_false]
    exact styledOutput_db_low (⟨attrs, fun b e => b ^ e⟩ : Env ℝ)
      s.currentValue h4 hlo
  · rw [updateDisplay_displayText, hed]
    simp only [Bool.false_eq_true, if_false]
    exact styledDisplay_db_high (⟨attrs, fun b e => b ^ e⟩ : Env ℝ)
      s.currentValue h4 hhi
  · rw [updateDisplay_outputValue, hed]
    simp only [Bool.false_eq_true, if_false]
    rw [styledOutput_db_high (⟨attrs, fun b e => b ^ e⟩ : Env ℝ)
      s.currentValue h4 hhi]
    rfl
  · have hhi : ¬ s.currentValue ≤ -80 := by
      rw [h6]
      norm_num
    rw [updateDisplay_outputValue, hed]
    simp only [Bool.false_eq_true, if_false]
    rw [styledOutput_db_high (⟨attrs, fun b e => b ^ e⟩ : Env ℝ)
      s.currentValue h4 hhi]
    have hdb : dbtoa (⟨attrs, fun b e => b ^ e⟩ : Env ℝ) s.currentValue
        = (10 : ℝ) ^ (s.currentValue / 20) := rfl
    rw [hdb, h6]
    have hb := dbtoa_neg6_bounds
    have e1 : (0.5002 : ℝ) < 1 / 1.999 := by norm_num
    have e2 : (1 / 1.992 : ℝ) < 0.5022 := by norm_num
    rw [abs_lt]
    constructor <;> linarith [hb.1, hb.2]

/-- A quiescent real-valued widget state at value `v` (default range,
active, not editing). -/
def rState (v : ℝ) : NumboxState ℝ :=
  { currentValue := v, minValue := -100, maxValue := 100, initialValue := 0,
    textJustification := "centre", activeState := true,
    displayText := .str "", outputValue := v, isDragging := false,
    dragStartY := 0, dragStartValue := 0, lastDragY := 0,
    cursorOrigin := (0, 0), isEditing := false, editText := "",
    hasFocus := false, showCursor := true, cursorTimerRunning := false,
    clickedInside := false }

/-- Witness for C2: at -100 the display is "-inf" with output 0; at -6 the
display is the one-decimal "dB" form and the output is within 0.001 of
0.5012. -/
theorem decibel_display_output_witness :
    (updateDisplay (⟨dbAttrs, fun b e => b ^ e⟩ : Env ℝ)
      (rState (-100))).displayText = .str "-inf"
    ∧ (updateDisplay (⟨dbAttrs, fun b e => b ^ e⟩ : Env ℝ)
        (rState (-100))).outputValue = 0
    ∧ (updateDisplay (⟨dbAttrs, fun b e => b ^ e⟩ : Env ℝ)
        (rState (-6))).displayText = .fixed (-6) 1 " dB"
    ∧ |(updateDisplay (⟨dbAttrs, fun b e => b ^ e⟩ : Env ℝ)
        (rState (-6))).outputValue - 0.5012| < 1 / 1000 := by
  have hlow := decibel_display_output dbAttrs (rState (-100)) rfl rfl
  have hhi := decibel_display_output dbAttrs (rState (-6)) rfl rfl
  have hc : (rState (-100) : NumboxState ℝ).currentValue ≤ -80 := by
    norm_num [rState]
  have hc6 : ¬ (rState (-6) : NumboxState ℝ).currentValue ≤ -80 := by
    norm_num [rState]
  refine ⟨(hlow.1 hc).1, (hlow.1 hc).2, ?_, hhi.2.2 rfl⟩
  have hd := (hhi.2.1 hc6).1
  simpa [rState] using hd
